import Mathlib

/-! # ffplay video output backends: a shallow embedding

The two presentation backends of ffplay, `ffplay_xv.c` (hardware overlay through SDL) and
`ffplay_gl.c` (OpenGL fragment program), embedded as Lean functions.

Conventions of the embedding.

* C `int`, `int64_t`, `GLint` and pointer values are `Int`; `Uint16` pitches are `Nat`.
  The product `bmp->pitches[i] * height` of `duplicate_right_border_pixels`, computed in 32-bit
  `int` by the source, is reduced to 32 bits by `int32`; the theorems about that function assume
  that the product fits.  `x >> 1` on an `int` is floor division by two.
* Memory is one flat byte store `Mem`, addressed by `Int`.
* Every call that leaves the translation unit (SDL, OpenGL, libavutil, libswscale) is recorded,
  in program order, in a list of events; what such a call returns is taken from an environment
  record, so that each function is a pure function of its arguments and of the environment.
* The pointer loop of `duplicate_right_border_pixels` takes a fuel argument and returns `none`
  when the fuel runs out; the theorems about it show how much fuel makes it return.  The loop of
  `has_extension` is a total function, by well-founded recursion on what is left of the string.
* A C string is the list of its characters before the terminating NUL.
-/

/-- The value a 32-bit two's complement `int` holds for the mathematical result `x`. -/
def int32 (x : Int) : Int := (x + 2147483648) % 4294967296 - 2147483648

/-- Flat byte memory: the byte stored at every address. -/
abbrev Mem := Int → Nat

/-- The store `*(a) = v`. -/
def Mem.store (m : Mem) (a : Int) (v : Nat) : Mem := fun x => if x = a then v else m x

/-- One access to memory made by the code under study. -/
inductive Access where
  | read (a : Int)
  | write (a : Int)
  deriving DecidableEq

/-- `AVFrame` / `AVPicture`, reduced to the fields the backends use. -/
structure AVFrame where
  data : Fin 3 → Int
  linesize : Fin 3 → Int
  width : Int
  height : Int
  format : Int
  deriving DecidableEq

/-- `FFplayVideoOutputTexture` of ffplay.h, as a live handle: the address of the struct and what
its `priv` member points to.  Both backends store a non-null `priv` in every handle they return;
a null handle is `none` of `Option (FFplayVideoOutputTexture _)`. -/
structure FFplayVideoOutputTexture (Priv : Type) where
  addr : Int
  priv : Priv
  deriving DecidableEq

namespace ffplay_xv

/-- `SDL_Overlay`: logical size, the three pitches and the three plane origins. -/
structure SDL_Overlay where
  w : Int
  h : Int
  pitches : Fin 3 → Nat
  pixels : Fin 3 → Int
  deriving DecidableEq

/-- Calls of ffplay_xv.c into SDL and libavutil. -/
inductive Event where
  | av_malloc (result : Option Int)
  | SDL_CreateYUVOverlay (width height : Int) (result : Option SDL_Overlay)
  | SDL_FreeYUVOverlay (bmp : SDL_Overlay)
  | av_free (p : Option Int)
  | SDL_LockYUVOverlay (bmp : SDL_Overlay)
  | SDL_UnlockYUVOverlay (bmp : SDL_Overlay)
  | sws_scale (dst : AVFrame)
  | av_picture_copy (dst : AVFrame)
  deriving DecidableEq

/-- What the collaborators of ffplay_xv.c answer. -/
structure Env where
  av_malloc : Option Int
  SDL_CreateYUVOverlay : Int → Int → Option SDL_Overlay
  sws_scale : Nat → AVFrame → AVFrame → Int → Mem → Mem
  av_picture_copy : AVFrame → AVFrame → Int → Int → Mem → Mem

/-- Logical width of plane `i`: `width = bmp->w; if (i > 0) width >>= 1;`. -/
def plane_width (bmp : SDL_Overlay) (i : Fin 3) : Int :=
  if 0 < i.val then bmp.w / 2 else bmp.w

/-- Height of plane `i`: `height = bmp->h; if (i > 0) height >>= 1;`. -/
def plane_height (bmp : SDL_Overlay) (i : Fin 3) : Int :=
  if 0 < i.val then bmp.h / 2 else bmp.h

/-- The inner loop `for (p = ...; p < maxp; p += pitch) *(p+1) = *p;`, started at `p`.
The state is the memory and the log of accesses. -/
def border_loop (pitch : Nat) (maxp : Int) :
    Nat → Int → Mem × List Access → Option (Mem × List Access)
  | 0, p, s => if p < maxp then none else some s
  | fuel + 1, p, s =>
    if p < maxp then
      border_loop pitch maxp fuel (p + pitch)
        (s.1.store (p + 1) (s.1 p), s.2 ++ [Access.read p, Access.write (p + 1)])
    else some s

/-- Body of the outer loop of `duplicate_right_border_pixels` for plane `i`. -/
def border_plane (bmp : SDL_Overlay) (fuel : Nat) (i : Fin 3) (s : Mem × List Access) :
    Option (Mem × List Access) :=
  let width := plane_width bmp i
  let height := plane_height bmp i
  if (bmp.pitches i : Int) > width then
    let maxp := bmp.pixels i + int32 ((bmp.pitches i : Int) * height) - 1
    border_loop (bmp.pitches i) maxp fuel (bmp.pixels i + width - 1) s
  else some s

/-- The function `duplicate_right_border_pixels`: planes 0, 1, 2 in turn. -/
def duplicate_right_border_pixels (bmp : SDL_Overlay) (fuel : Nat) (s : Mem × List Access) :
    Option (Mem × List Access) :=
  (border_plane bmp fuel 0 s).bind fun s0 =>
    (border_plane bmp fuel 1 s0).bind fun s1 => border_plane bmp fuel 2 s1

/-- The function `alloc_texture` of ffplay_xv.c. -/
def alloc_texture (env : Env) (width height : Int) :
    Option (FFplayVideoOutputTexture SDL_Overlay) × List Event :=
  match env.av_malloc with
  | none => (none, [Event.av_malloc none])
  | some tex =>
    let bmp := env.SDL_CreateYUVOverlay width height
    let tr := [Event.av_malloc (some tex), Event.SDL_CreateYUVOverlay width height bmp]
    match bmp with
    | none => (none, tr ++ [Event.av_free (some tex)])
    | some b =>
      let bufferdiff : Int := max (b.pixels 0) (b.pixels 1) - min (b.pixels 0) (b.pixels 1)
      if (b.pitches 0 : Int) < width ∨ bufferdiff < height * (b.pitches 0 : Int) then
        (none, tr ++ [Event.SDL_FreeYUVOverlay b, Event.av_free (some tex)])
      else (some ⟨tex, b⟩, tr)

/-- The function `free_texture` of ffplay_xv.c, on the caller's handle variable `*texp`
(`none` is a null handle).  `av_freep(texp)` passes `*texp` to `av_free`, for which null is a
no-op, and nulls the variable.  The overlay behind `priv` is the one handed to
`SDL_FreeYUVOverlay`. -/
def free_texture (texp : Option (FFplayVideoOutputTexture SDL_Overlay)) :
    Option (FFplayVideoOutputTexture SDL_Overlay) × List Event :=
  match texp with
  | none => (none, [Event.av_free none])
  | some tex => (none, [Event.SDL_FreeYUVOverlay tex.priv, Event.av_free (some tex.addr)])

/-- The overlay surfaces the display subsystem granted in a run. -/
def granted : List Event → List SDL_Overlay
  | [] => []
  | Event.SDL_CreateYUVOverlay _ _ (some b) :: tr => b :: granted tr
  | _ :: tr => granted tr

/-- The overlay surfaces given back to the display subsystem in a run, one entry per call. -/
def released : List Event → List SDL_Overlay
  | [] => []
  | Event.SDL_FreeYUVOverlay b :: tr => b :: released tr
  | _ :: tr => released tr

/-- The heap blocks freed in a run, one entry per `av_free` of a non-null pointer. -/
def freed : List Event → List Int
  | [] => []
  | Event.av_free (some q) :: tr => q :: freed tr
  | _ :: tr => freed tr

/-- The picture view `pict` that `fill_texture` and `blend_texture` build over the overlay:
planes 1 and 2 are exchanged (YV12). -/
def pict_of (bmp : SDL_Overlay) : AVFrame :=
  { data := ![bmp.pixels 0, bmp.pixels 2, bmp.pixels 1]
    linesize := ![(bmp.pitches 0 : Int), (bmp.pitches 2 : Int), (bmp.pitches 1 : Int)]
    width := 0, height := 0, format := 0 }

/-- The function `fill_texture` of ffplay_xv.c: lock, convert or copy into the overlay planes,
duplicate the right border, unlock.  Returns the memory, the calls made and the accesses of the
border pass. -/
def fill_texture (env : Env) (fuel : Nat) (bmp : SDL_Overlay) (src_frame : AVFrame)
    (img_convert_ctx : Option Nat) (mem : Mem) : Option (Mem × List Event × List Access) :=
  let pict := pict_of bmp
  let filled : Mem × List Event :=
    match img_convert_ctx with
    | some ctx => (env.sws_scale ctx src_frame pict bmp.h mem, [Event.sws_scale pict])
    | none => (env.av_picture_copy pict src_frame bmp.w bmp.h mem, [Event.av_picture_copy pict])
  (duplicate_right_border_pixels bmp fuel (filled.1, [])).map fun s =>
    (s.1, [Event.SDL_LockYUVOverlay bmp] ++ filled.2 ++ [Event.SDL_UnlockYUVOverlay bmp], s.2)

/-- Plane `i` of the overlay occupies the addresses `a` with
`pixels[i] <= a < pixels[i] + pitches[i] * plane height`. -/
def plane_region (bmp : SDL_Overlay) (i : Fin 3) (a : Int) : Prop :=
  bmp.pixels i ≤ a ∧ a < bmp.pixels i + (bmp.pitches i : Int) * plane_height bmp i

/-- The state after `n` trips of the inner loop started at `p`. -/
def rows_done (pitch : Nat) : Nat → Int → Mem × List Access → Mem × List Access
  | 0, _, s => s
  | n + 1, p, s =>
    rows_done pitch n (p + pitch)
      (s.1.store (p + 1) (s.1 p), s.2 ++ [Access.read p, Access.write (p + 1)])

/-- A 4x2 overlay whose luma pitch is width + 4; the chroma planes (2x1) have pitch 6. -/
def overlay_4x2 : SDL_Overlay :=
  { w := 4, h := 2, pitches := ![8, 6, 6], pixels := ![0, 16, 22] }

/-- A 1x2 overlay with pitch 4 on every plane: the chroma planes have logical width 0. -/
def overlay_1x2 : SDL_Overlay :=
  { w := 1, h := 2, pitches := ![4, 4, 4], pixels := ![0, 8, 12] }

/-- Collaborators that grant `overlay_4x2` and whose copy routines leave memory as it is. -/
def env_keep : Env :=
  { av_malloc := some 1000
    SDL_CreateYUVOverlay := fun _ _ => some overlay_4x2
    sws_scale := fun _ _ _ _ m => m
    av_picture_copy := fun _ _ _ _ m => m }

/-- Collaborators that grant `overlay_1x2`. -/
def env_1x2 : Env :=
  { env_keep with SDL_CreateYUVOverlay := fun _ _ => some overlay_1x2 }

/-- A memory in which every address at or above zero holds its own number. -/
def mem_addr : Mem := fun a => a.toNat

end ffplay_xv

namespace ffplay_gl

/-- The terminating NUL of a C string. -/
def NUL : Char := Char.ofNat 0

/-- `GLOverlay`, the payload of a texture handle of the OpenGL backend. -/
structure GLOverlay where
  textures : Fin 3 → Nat
  frame : AVFrame
  w : Int
  h : Int
  texture_ready : Int
  texture_initialized : Int
  deriving DecidableEq

/-- A pointer to a heap allocated `GLOverlay`: the address and the struct stored there. -/
structure GLOverlayPtr where
  addr : Int
  obj : GLOverlay
  deriving DecidableEq

/-- `SDL_Rect`. -/
structure SDL_Rect where
  x : Int
  y : Int
  w : Int
  h : Int
  deriving DecidableEq

/-- The file-scope variables of ffplay_gl.c (`none` is a null entry point). -/
structure Globals where
  glGenProgramsARB : Option Nat
  glBindProgramARB : Option Nat
  glProgramStringARB : Option Nat
  glDeleteProgramsARB : Option Nat
  glProgramLocalParameter4fvARB : Option Nat
  max_texture_size : Int
  max_texture_units : Int
  fragment_program : Nat
  initialized : Int
  deriving DecidableEq

/-- The variables as the loader leaves them: zero initialised, `initialized = 0`. -/
def Globals.init : Globals :=
  { glGenProgramsARB := none, glBindProgramARB := none, glProgramStringARB := none,
    glDeleteProgramsARB := none, glProgramLocalParameter4fvARB := none,
    max_texture_size := 0, max_texture_units := 0, fragment_program := 0, initialized := 0 }

/-- Calls of ffplay_gl.c into OpenGL, SDL, libavutil, libavcodec, libswscale and ffplay.c,
with the arguments that matter and, for queries, the answer. -/
inductive Event where
  | av_malloc (result : Option Int)
  | av_calloc (result : Option Int)
  | av_free (p : Option Int)
  | glGetString (name : String) (result : Option (List Char))
  | SDL_GL_GetProcAddress (name : String) (result : Option Nat)
  | glGetIntegerv (pname : String) (result : Int)
  | glGenProgramsARB (n : Nat) (name : Nat)
  | glBindProgramARB (target : String) (program : Nat)
  | glProgramStringARB (target : String) (len : Nat)
  | glGenTextures (n : Nat) (names : Fin 3 → Nat)
  | glDeleteTextures (n : Nat) (names : Fin 3 → Nat)
  | avcodec_get_frame_defaults
  | av_frame_get_buffer (align : Int) (result : Int)
  | av_frame_unref
  | av_frame_ref
  | av_frame_make_writable
  | sws_scale
  | blend_subrect (rect : Nat) (imgw imgh : Int)
  | glBindTexture (name : Nat)
  | glPixelStorei (pname : String) (param : Int)
  | glTexParameteri (pname : String) (param : String)
  | glTexImage2D (width height : Int) (data : Int)
  | glTexSubImage2D (width height : Int) (data : Int)
  | glViewport (x y w h : Int)
  | glMatrixMode (mode : String)
  | glLoadIdentity
  | glOrtho (left right bottom top near far : Int)
  | glActiveTextureARB (unit : Nat)
  | glEnable (cap : String)
  | glProgramLocalParameter4fvARB (index : Nat) (params : Fin 4 → ℚ)
  | glClearColor
  | glClear
  | glBegin
  | glMultiTexCoord2fARB (unit : Nat) (s t : ℚ)
  | glVertex2d (x y : Int)
  | glEnd
  | SDL_GL_SwapBuffers
  deriving DecidableEq

/-- What the collaborators of ffplay_gl.c answer. -/
structure Env where
  av_malloc : Option Int
  av_calloc : Option Int
  glGetString_EXTENSIONS : Option (List Char)
  SDL_GL_GetProcAddress : String → Option Nat
  GL_MAX_TEXTURE_SIZE : Int
  GL_MAX_TEXTURE_UNITS_ARB : Int
  glGenProgramsARB : Nat
  glGenTextures : Fin 3 → Nat
  av_frame_get_buffer : AVFrame → Int × AVFrame
  av_frame_make_writable : AVFrame → AVFrame
  sws_scale : Nat → AVFrame → AVFrame → AVFrame
  blend_subrect : AVFrame → Nat → AVFrame

/-- The table `matrix_bt601_tv2full`. -/
def matrix_bt601_tv2full : Fin 4 → Fin 4 → ℚ :=
  ![![ 1.164383561643836,  1.164383561643836,  1.164383561643836, 0.0000],
    ![ 0.0000,            -0.391762290094914,  2.017232142857142, 0.0000],
    ![ 1.596026785714286, -0.812967647237771,  0.0000,            0.0000],
    ![-0.874202217873451,  0.531667823499146, -1.085630789302022, 0.0000]]

/-- The table `matrix_bt709_tv2full`. -/
def matrix_bt709_tv2full : Fin 4 → Fin 4 → ℚ :=
  ![![ 1.164383561643836,  1.164383561643836,  1.164383561643836, 0.0000],
    ![ 0.0000,            -0.213248614273730,  2.112401785714286, 0.0000],
    ![ 1.792741071428571, -0.532909328559444,  0.0000,            0.0000],
    ![-0.972945075016308,  0.301482665475862, -1.133402217873451, 0.0000]]

/-- The text of `fragment_program_source`. -/
def fragment_program_source : String :=
  "!!ARBfp1.0" ++
  "OPTION ARB_precision_hint_fastest;" ++
  "TEMP src;" ++
  "TEX src.x, fragment.texcoord[0], texture[0], 2D;" ++
  "TEX src.y, fragment.texcoord[1], texture[1], 2D;" ++
  "TEX src.z, fragment.texcoord[2], texture[2], 2D;" ++
  "PARAM coefficient[4] = \x7b program.local[0..3] \x7d;" ++
  "TEMP tmp;" ++
  "MAD  tmp.rgb,          src.xxxx, coefficient[0], coefficient[3];" ++
  "MAD  tmp.rgb,          src.yyyy, coefficient[1], tmp;" ++
  "MAD  result.color.rgb, src.zzzz, coefficient[2], tmp;" ++
  "END"

/-- What the three `MAD` instructions of the fragment program compute for colour channel `c`
(0 = r, 1 = g, 2 = b) from the samples `src.x`, `src.y`, `src.z` of texture units 0, 1, 2 and the
four coefficient rows: `tmp = x * c0 + c3; tmp = y * c1 + tmp; result = z * c2 + tmp`. -/
def fragment_program_eval (coefficient : Fin 4 → Fin 4 → ℚ) (x y z : ℚ) (c : Fin 3) : ℚ :=
  let c4 : Fin 4 := c.castSucc
  let tmp := x * coefficient 0 c4 + coefficient 3 c4
  let tmp := y * coefficient 1 c4 + tmp
  z * coefficient 2 c4 + tmp

/-- The libc `strncmp` on C strings given as the characters before the terminator: compares at
most `n` characters and stops after a NUL. -/
def strncmp : List Char → List Char → Nat → Int
  | _, _, 0 => 0
  | a, b, n + 1 =>
    if a.headD NUL ≠ b.headD NUL then ((a.headD NUL).toNat : Int) - ((b.headD NUL).toNat : Int)
    else if a.headD NUL = NUL then 0
    else strncmp a.tail b.tail n

/-- The libc `strchr(s, c)` for `c` other than NUL: the string from the first `c` on, or null. -/
def strchr : List Char → Char → Option (List Char)
  | [], _ => none
  | x :: xs, c => if x = c then some (x :: xs) else strchr xs c

/-- The loop `while (*apis == ' ') apis++;`. -/
def skip_spaces : List Char → List Char
  | [] => []
  | x :: xs => if x = ' ' then skip_spaces xs else x :: xs

/-- Loop measure of `has_extension`: what is left of the string, null counting for nothing. -/
def cstr_measure : Option (List Char) → Nat
  | none => 0
  | some s => s.length + 1

/-- The function `has_extension`.  The pointer `apis` is the rest of the string from the pointer
on (`none` is null); `memchr(" ", c, 2)` finds `c` among the space and the terminator of the
literal. -/
def has_extension : Option (List Char) → List Char → Int
  | none, _ => 0
  | some apis, api =>
    if strncmp (skip_spaces apis) api api.length = 0 ∧
        ((skip_spaces apis).getD api.length NUL = ' ' ∨
          (skip_spaces apis).getD api.length NUL = NUL) then 1
    else has_extension (strchr (skip_spaces apis) ' ') api
termination_by o => cstr_measure o
decreasing_by
  have hskip : ∀ s : List Char, (skip_spaces s).length ≤ s.length ∧
      (skip_spaces s).head? ≠ some ' ' := by
    intro s
    induction s with
    | nil => simp [skip_spaces]
    | cons x xs ih =>
      by_cases hx : x = ' '
      · simp only [skip_spaces, hx, if_true, List.length_cons]
        exact ⟨by omega, ih.2⟩
      · simp [skip_spaces, hx]
  have hchr : ∀ s : List Char, cstr_measure (strchr s ' ') ≤ s.length + 1 ∧
      (s.head? ≠ some ' ' → cstr_measure (strchr s ' ') ≤ s.length) := by
    intro s
    induction s with
    | nil => simp [strchr, cstr_measure]
    | cons x xs ih =>
      by_cases hx : x = ' '
      · simp [strchr, cstr_measure, hx]
      · simp only [strchr, hx, if_false, List.length_cons, List.head?_cons, ne_eq,
          Option.some.injEq, not_false_eq_true, true_implies]
        exact ⟨by omega, ih.1⟩
  have h1 := hskip apis
  have h2 := (hchr (skip_spaces apis)).2 h1.2
  simp only [cstr_measure] at h2 ⊢
  omega

/-- The function `initialize_gl`: result, the file-scope variables afterwards, calls made. -/
def initialize_gl (env : Env) (g : Globals) : Int × Globals × List Event :=
  let extensions := env.glGetString_EXTENSIONS
  let g1 : Globals :=
    { g with
      glGenProgramsARB := env.SDL_GL_GetProcAddress "glGenProgramsARB"
      glBindProgramARB := env.SDL_GL_GetProcAddress "glBindProgramARB"
      glProgramStringARB := env.SDL_GL_GetProcAddress "glProgramStringARB"
      glDeleteProgramsARB := env.SDL_GL_GetProcAddress "glDeleteProgramsARB"
      glProgramLocalParameter4fvARB := env.SDL_GL_GetProcAddress "glProgramLocalParameter4fvARB"
      max_texture_size := env.GL_MAX_TEXTURE_SIZE
      max_texture_units := env.GL_MAX_TEXTURE_UNITS_ARB }
  let tr : List Event :=
    [Event.glGetString "GL_EXTENSIONS" extensions,
     Event.SDL_GL_GetProcAddress "glGenProgramsARB" g1.glGenProgramsARB,
     Event.SDL_GL_GetProcAddress "glBindProgramARB" g1.glBindProgramARB,
     Event.SDL_GL_GetProcAddress "glProgramStringARB" g1.glProgramStringARB,
     Event.SDL_GL_GetProcAddress "glDeleteProgramsARB" g1.glDeleteProgramsARB,
     Event.SDL_GL_GetProcAddress "glProgramLocalParameter4fvARB"
       g1.glProgramLocalParameter4fvARB,
     Event.glGetIntegerv "GL_MAX_TEXTURE_SIZE" g1.max_texture_size,
     Event.glGetIntegerv "GL_MAX_TEXTURE_UNITS_ARB" g1.max_texture_units]
  if extensions = none ∨
      g1.glGenProgramsARB = none ∨
      g1.glBindProgramARB = none ∨
      g1.glProgramStringARB = none ∨
      g1.glDeleteProgramsARB = none ∨
      g1.glProgramLocalParameter4fvARB = none ∨
      has_extension extensions "GL_ARB_multitexture".toList = 0 ∨
      has_extension extensions "GL_ARB_texture_non_power_of_two".toList = 0 ∨
      has_extension extensions "GL_ARB_fragment_program".toList = 0 then
    (0, g1, tr)
  else
    (1, { g1 with fragment_program := env.glGenProgramsARB },
      tr ++ [Event.glGenProgramsARB 1 env.glGenProgramsARB,
             Event.glBindProgramARB "GL_FRAGMENT_PROGRAM_ARB" env.glGenProgramsARB,
             Event.glProgramStringARB "GL_FRAGMENT_PROGRAM_ARB" fragment_program_source.length])

/-- The block `if (!initialized) { if (!initialize_gl()) goto err; initialized = 1; }` of
`alloc_texture`: 0 when control leaves for `err`, 1 when it falls through; the file-scope
variables afterwards; the calls made. -/
def ensure_initialized (env : Env) (g : Globals) : Int × Globals × List Event :=
  if g.initialized = 0 then
    if (initialize_gl env g).1 = 0 then
      (0, (initialize_gl env g).2.1, (initialize_gl env g).2.2)
    else (1, { (initialize_gl env g).2.1 with initialized := 1 }, (initialize_gl env g).2.2)
  else (1, g, [])

/-- The function `alloc_texture` of ffplay_gl.c: the handle returned (`none` is null), the
file-scope variables afterwards, and the calls made.  The label `err` is `av_free(ctx);
av_free(tex); return NULL;`. -/
def alloc_texture (env : Env) (g : Globals) (width height : Int) :
    Option (FFplayVideoOutputTexture GLOverlayPtr) × Globals × List Event :=
  match env.av_malloc with
  | none => (none, g, [Event.av_malloc none])
  | some tex =>
    let tr0 := [Event.av_malloc (some tex), Event.av_calloc env.av_calloc]
    let err (tr : List Event) : List Event :=
      tr ++ [Event.av_free env.av_calloc, Event.av_free (some tex)]
    match env.av_calloc with
    | none => (none, g, err tr0)
    | some ctx =>
      let init := ensure_initialized env g
      if init.1 = 0 then (none, init.2.1, err (tr0 ++ init.2.2))
      else
        let g1 := init.2.1
        let tr1 := tr0 ++ init.2.2
        if width > g1.max_texture_size ∨ height > g1.max_texture_size ∨
            g1.max_texture_units < 3 then (none, g1, err tr1)
        else
          let frame0 : AVFrame :=
            { data := ![0, 0, 0], linesize := ![0, 0, 0], width := width, height := height,
              format := 0 }
          let buf := env.av_frame_get_buffer frame0
          let tr2 := tr1 ++ [Event.glGenTextures 3 env.glGenTextures,
            Event.avcodec_get_frame_defaults, Event.av_frame_get_buffer 16 buf.1]
          if buf.1 < 0 then (none, g1, err tr2)
          else
            (some ⟨tex, ⟨ctx,
              { textures := env.glGenTextures, frame := buf.2, w := width, h := height,
                texture_ready := 0, texture_initialized := 0 }⟩⟩, g1, tr2)

/-- The function `free_texture` of ffplay_gl.c on the caller's handle variable `*texp`. -/
def free_texture (texp : Option (FFplayVideoOutputTexture GLOverlayPtr)) :
    Option (FFplayVideoOutputTexture GLOverlayPtr) × List Event :=
  match texp with
  | none => (none, [Event.av_free none])
  | some tex =>
    (none, [Event.glDeleteTextures 3 tex.priv.obj.textures, Event.av_frame_unref,
      Event.av_free (some tex.priv.addr), Event.av_free (some tex.addr)])

/-- The function `get_alignment`. -/
def get_alignment (linesize : Int) : Int :=
  if linesize % 8 = 0 then 8
  else if linesize % 4 = 0 then 4
  else if linesize % 2 = 0 then 2
  else 1

/-- Body of the loop of `load_texture` for plane `i`. -/
def load_plane (ctx : GLOverlay) (data : Fin 3 → Int) (linesize : Fin 3 → Int) (i : Fin 3) :
    List Event :=
  let shift : Nat := if 0 < i.val then 1 else 0
  [Event.glBindTexture (ctx.textures i),
   Event.glPixelStorei "GL_UNPACK_ALIGNMENT" (get_alignment (linesize i)),
   Event.glPixelStorei "GL_UNPACK_ROW_LENGTH" (linesize i)] ++
  (if ctx.texture_initialized ≠ 0 then
    [Event.glTexSubImage2D (ctx.w / 2 ^ shift) (ctx.h / 2 ^ shift) (data i)]
   else
    [Event.glTexParameteri "GL_TEXTURE_MIN_FILTER" "GL_LINEAR",
     Event.glTexParameteri "GL_TEXTURE_MAG_FILTER" "GL_LINEAR",
     Event.glTexParameteri "GL_TEXTURE_WRAP_S" "GL_CLAMP_TO_EDGE",
     Event.glTexParameteri "GL_TEXTURE_WRAP_T" "GL_CLAMP_TO_EDGE",
     Event.glTexImage2D (ctx.w / 2 ^ shift) (ctx.h / 2 ^ shift) (data i)])

/-- The function `load_texture`. -/
def load_texture (ctx : GLOverlay) (data : Fin 3 → Int) (linesize : Fin 3 → Int) :
    GLOverlay × List Event :=
  ({ ctx with texture_initialized := 1, texture_ready := 1 },
    load_plane ctx data linesize 0 ++ load_plane ctx data linesize 1 ++
      load_plane ctx data linesize 2)

/-- The function `display_texture`: the payload afterwards and the calls made. -/
def display_texture (g : Globals) (ctx : GLOverlay) (rect : SDL_Rect) :
    GLOverlay × List Event :=
  let matrix : Fin 4 → Fin 4 → ℚ :=
    if ctx.h > 576 then matrix_bt709_tv2full else matrix_bt601_tv2full
  let loaded : GLOverlay × List Event :=
    if ctx.texture_ready = 0 then load_texture ctx ctx.frame.data ctx.frame.linesize
    else (ctx, [])
  let bind (i : Fin 3) : List Event :=
    [Event.glActiveTextureARB i.val, Event.glBindTexture (ctx.textures i),
     Event.glEnable "GL_TEXTURE_2D"]
  let coords (s t : ℚ) : List Event :=
    [Event.glMultiTexCoord2fARB 0 s t, Event.glMultiTexCoord2fARB 1 s t,
     Event.glMultiTexCoord2fARB 2 s t]
  (loaded.1,
    [Event.glViewport rect.x rect.y rect.w rect.h,
     Event.glMatrixMode "GL_PROJECTION", Event.glLoadIdentity,
     Event.glOrtho 0 rect.w rect.h 0 (-10) 10,
     Event.glMatrixMode "GL_MODELVIEW", Event.glLoadIdentity] ++
    loaded.2 ++
    bind 0 ++ bind 1 ++ bind 2 ++
    [Event.glBindProgramARB "GL_FRAGMENT_PROGRAM_ARB" g.fragment_program,
     Event.glEnable "GL_FRAGMENT_PROGRAM_ARB",
     Event.glProgramLocalParameter4fvARB 0 (matrix 0),
     Event.glProgramLocalParameter4fvARB 1 (matrix 1),
     Event.glProgramLocalParameter4fvARB 2 (matrix 2),
     Event.glProgramLocalParameter4fvARB 3 (matrix 3),
     Event.glClearColor, Event.glClear, Event.glBegin] ++
    coords 0 0 ++ [Event.glVertex2d 0 0] ++
    coords 1 0 ++ [Event.glVertex2d rect.w 0] ++
    coords 1 1 ++ [Event.glVertex2d rect.w rect.h] ++
    coords 0 1 ++ [Event.glVertex2d 0 rect.h] ++
    [Event.glEnd, Event.SDL_GL_SwapBuffers])

/-- The function `fill_texture` of ffplay_gl.c.  With a conversion context the mirror frame is
made writable and converted into; without, the mirror becomes a reference to the source
frame. -/
def fill_texture (env : Env) (ctx : GLOverlay) (src_frame : AVFrame)
    (img_convert_ctx : Option Nat) : GLOverlay × List Event :=
  match img_convert_ctx with
  | some c =>
    ({ ctx with
       frame := env.sws_scale c src_frame (env.av_frame_make_writable ctx.frame)
       texture_ready := 0 },
      [Event.av_frame_make_writable, Event.sws_scale])
  | none =>
    ({ ctx with frame := src_frame, texture_ready := 0 },
      [Event.av_frame_unref, Event.av_frame_ref])

/-- The loop `for (i = 0; i < sub->num_rects; i++) blend_subrect(...)` over the rectangles. -/
def blend_rects (env : Env) (w h : Int) : List Nat → AVFrame × List Event → AVFrame × List Event
  | [], s => s
  | r :: rs, s =>
    blend_rects env w h rs (env.blend_subrect s.1 r, s.2 ++ [Event.blend_subrect r w h])

/-- The function `blend_texture` of ffplay_gl.c; `sub` lists `sub->rects[0 .. num_rects-1]`. -/
def blend_texture (env : Env) (ctx : GLOverlay) (sub : List Nat) : GLOverlay × List Event :=
  let r := blend_rects env ctx.w ctx.h sub
    (env.av_frame_make_writable ctx.frame, [Event.av_frame_make_writable])
  ({ ctx with frame := r.1, texture_ready := 0 }, r.2)

/-- One call of the capability interface on a live handle. -/
inductive Op where
  | fill (src_frame : AVFrame) (img_convert_ctx : Option Nat)
  | blend (sub : List Nat)
  | display (rect : SDL_Rect)

/-- The call `op` on the payload `ctx`. -/
def step (env : Env) (g : Globals) (ctx : GLOverlay) : Op → GLOverlay × List Event
  | Op.fill src c => fill_texture env ctx src c
  | Op.blend sub => blend_texture env ctx sub
  | Op.display rect => display_texture g ctx rect

/-- The payload after the calls `ops`, in order. -/
def run (env : Env) (g : Globals) : GLOverlay → List Op → GLOverlay
  | ctx, [] => ctx
  | ctx, op :: ops => run env g (step env g ctx op).1 ops

/-- The plane buffers handed to `glTexImage2D` / `glTexSubImage2D` in a run: one entry per
upload of a plane. -/
def uploads : List Event → List Int
  | [] => []
  | Event.glTexImage2D _ _ d :: tr => d :: uploads tr
  | Event.glTexSubImage2D _ _ d :: tr => d :: uploads tr
  | _ :: tr => uploads tr

/-- The rows handed to `glProgramLocalParameter4fvARB` in a run, with their index. -/
def local_parameters : List Event → List (Nat × (Fin 4 → ℚ))
  | [] => []
  | Event.glProgramLocalParameter4fvARB i row :: tr => (i, row) :: local_parameters tr
  | _ :: tr => local_parameters tr

/-- Number of dirtying operations since the last display in a history of calls that follows the
allocation: the allocation itself counts as one, every fill and blend adds one, a display
resets the count to zero. -/
def dirty_count : List Op → Nat → Nat
  | [], d => d
  | Op.fill _ _ :: ops, d => dirty_count ops (d + 1)
  | Op.blend _ :: ops, d => dirty_count ops (d + 1)
  | Op.display _ :: ops, _ => dirty_count ops 0

/-- The texture names created in a run (`glGenTextures`). -/
def generated : List Event → List Nat
  | [] => []
  | Event.glGenTextures _ names :: tr => [names 0, names 1, names 2] ++ generated tr
  | _ :: tr => generated tr

/-- The texture names deleted in a run (`glDeleteTextures`). -/
def deleted : List Event → List Nat
  | [] => []
  | Event.glDeleteTextures _ names :: tr => [names 0, names 1, names 2] ++ deleted tr
  | _ :: tr => deleted tr

/-- The heap blocks obtained in a run (`av_malloc`, `av_calloc` returning non-null). -/
def allocated : List Event → List Int
  | [] => []
  | Event.av_malloc (some q) :: tr => q :: allocated tr
  | Event.av_calloc (some q) :: tr => q :: allocated tr
  | _ :: tr => allocated tr

/-- The heap blocks freed in a run, one entry per `av_free` of a non-null pointer. -/
def freed : List Event → List Int
  | [] => []
  | Event.av_free (some q) :: tr => q :: freed tr
  | _ :: tr => freed tr

/-- Number of times a run enters `initialize_gl`, which alone queries `GL_EXTENSIONS`. -/
def initialize_gl_calls : List Event → Nat
  | [] => 0
  | Event.glGetString _ _ :: tr => initialize_gl_calls tr + 1
  | _ :: tr => initialize_gl_calls tr

/-- Number of times a run drops the buffers of the mirror frame (`av_frame_unref`). -/
def frame_unrefs : List Event → Nat
  | [] => 0
  | Event.av_frame_unref :: tr => frame_unrefs tr + 1
  | _ :: tr => frame_unrefs tr

/-- The name `api` is one of the maximal space-separated tokens of `apis`: it occurs in `apis`
with the start of the string or a space right before it, and the end of the string or a space
right after it. -/
def is_token (api apis : List Char) : Prop :=
  ∃ pre post, apis = pre ++ api ++ post ∧ (pre = [] ∨ pre.getLast? = some ' ') ∧
    (post = [] ∨ post.head? = some ' ')

/-- The string `s` begins with the token `api`. -/
def starts_token (api s : List Char) : Prop :=
  ∃ post, s = api ++ post ∧ (post = [] ∨ post.head? = some ' ')

/-- The token `api` occurs in `s` after a space. -/
def later_token (api s : List Char) : Prop :=
  ∃ pre post, s = pre ++ api ++ post ∧ pre.getLast? = some ' ' ∧
    (post = [] ∨ post.head? = some ' ')

/-- A uniform mid-level sample: 128 on the 0..255 scale. -/
def mid_level : ℚ := 128 / 255

/-- Output of the fragment program for uniform mid-level input with the high-definition
coefficients. -/
def mid_gray_bt709 (c : Fin 3) : ℚ :=
  fragment_program_eval matrix_bt709_tv2full mid_level mid_level mid_level c

/-- Output of the fragment program for uniform mid-level input with the standard-definition
coefficients. -/
def mid_gray_bt601 (c : Fin 3) : ℚ :=
  fragment_program_eval matrix_bt601_tv2full mid_level mid_level mid_level c

/-- A series of `alloc_texture` calls, each with its own collaborators and size, threading the
file-scope variables: the variables at the end and all the calls made. -/
def alloc_many : Globals → List (Env × Int × Int) → Globals × List Event
  | g, [] => (g, [])
  | g, c :: cs =>
    ((alloc_many (alloc_texture c.1 g c.2.1 c.2.2).2.1 cs).1,
      (alloc_texture c.1 g c.2.1 c.2.2).2.2 ++
        (alloc_many (alloc_texture c.1 g c.2.1 c.2.2).2.1 cs).2)

/-- Collaborators of a capable GPU: every allocation succeeds, the three extensions are there,
textures up to 4096 and 8 texture units. -/
def env_ok : Env :=
  { av_malloc := some 1000
    av_calloc := some 2000
    glGetString_EXTENSIONS :=
      some "GL_ARB_multitexture GL_ARB_texture_non_power_of_two GL_ARB_fragment_program".toList
    SDL_GL_GetProcAddress := fun _ => some 1
    GL_MAX_TEXTURE_SIZE := 4096
    GL_MAX_TEXTURE_UNITS_ARB := 8
    glGenProgramsARB := 1
    glGenTextures := ![11, 12, 13]
    av_frame_get_buffer := fun f =>
      (0, { f with data := ![3000, 4000, 5000], linesize := ![f.width, f.width / 2, f.width / 2] })
    av_frame_make_writable := fun f => f
    sws_scale := fun _ _ dst => dst
    blend_subrect := fun f _ => f }

/-- The same collaborators, except that `av_frame_get_buffer` fails with `AVERROR(ENOMEM)`. -/
def env_no_buffer : Env :=
  { env_ok with av_frame_get_buffer := fun f => (-12, f) }

/-- The file-scope variables after a successful `initialize_gl` against `env_ok`. -/
def globals_ready : Globals :=
  { glGenProgramsARB := some 1, glBindProgramARB := some 1, glProgramStringARB := some 1,
    glDeleteProgramsARB := some 1, glProgramLocalParameter4fvARB := some 1,
    max_texture_size := 4096, max_texture_units := 8, fragment_program := 1, initialized := 1 }

/-- The handle that `alloc_texture` returns for a `width` x `height` request against `env_ok`
once the GPU state is initialized. -/
def handle_ok (width height : Int) : FFplayVideoOutputTexture GLOverlayPtr :=
  { addr := 1000
    priv :=
      { addr := 2000
        obj :=
          { textures := ![11, 12, 13]
            frame :=
              { data := ![3000, 4000, 5000], linesize := ![width, width / 2, width / 2],
                width := width, height := height, format := 0 }
            w := width, h := height, texture_ready := 0, texture_initialized := 0 } } }

/-- A decoded frame in the layout of the mirror. -/
def frame_src : AVFrame :=
  { data := ![7000, 8000, 9000], linesize := ![720, 360, 360], width := 720, height := 576,
    format := 0 }

/-- A destination rectangle. -/
def rect_full : SDL_Rect := { x := 0, y := 0, w := 720, h := 576 }

end ffplay_gl

/-! ## Theorems -/

namespace ffplay_xv

theorem border_loop_eq_rows_done (pitch : Nat) (maxp : Int) (n : Nat) :
    ∀ (fuel : Nat) (p : Int) (s : Mem × List Access), n ≤ fuel →
      (∀ k : Nat, k < n → p + (k : Int) * pitch < maxp) → ¬ (p + (n : Int) * pitch < maxp) →
      border_loop pitch maxp fuel p s = some (rows_done pitch n p s) := by
  induction n with
  | zero =>
    intro fuel p s _ _ hstop
    have hp : ¬ p < maxp := by simpa using hstop
    cases fuel <;> simp [border_loop, rows_done, hp]
  | succ n ih =>
    intro fuel p s hfuel hlt hstop
    obtain ⟨f, rfl⟩ : ∃ f, fuel = f + 1 := ⟨fuel - 1, by omega⟩
    have h0 : p < maxp := by simpa using hlt 0 (Nat.succ_pos n)
    simp only [border_loop, rows_done, h0, if_true]
    apply ih f _ _ (by omega)
    · intro k hk
      have := hlt (k + 1) (by omega)
      push_cast at this
      linarith
    · intro h
      apply hstop
      push_cast
      linarith

theorem rows_done_accesses (pitch : Nat) (n : Nat) :
    ∀ (p : Int) (s : Mem × List Access),
      (rows_done pitch n p s).2 = s.2 ++ (List.range n).flatMap fun k =>
        [Access.read (p + (k : Int) * pitch), Access.write (p + (k : Int) * pitch + 1)] := by
  induction n with
  | zero => intro p s; simp [rows_done]
  | succ n ih =>
    intro p s
    rw [rows_done, ih, List.range_succ_eq_map]
    simp only [List.flatMap_cons, List.flatMap_map, List.append_assoc, List.cons_append,
      List.nil_append, Nat.cast_zero, zero_mul, add_zero]
    congr 3
    apply List.flatMap_congr
    intro k _
    simp only [Function.comp, Nat.cast_succ]
    rw [show p + pitch + (k : Int) * pitch = p + ((k : Int) + 1) * pitch by ring]

theorem int32_of_fits (x : Int) (h : -2147483648 ≤ x ∧ x ≤ 2147483647) : int32 x = x := by
  unfold int32
  omega

/-- The border pass over one plane of logical width at least 1: with fuel for its rows it
returns, it visits the rows `0 .. height - 1` once each, in order, reading column `width - 1`
and writing column `width` of the row, and every address it touches lies inside the plane. -/
theorem border_plane_accesses_in_bounds (bmp : SDL_Overlay) (i : Fin 3) (fuel : Nat)
    (s : Mem × List Access) (hw : 1 ≤ plane_width bmp i)
    (hgt : (bmp.pitches i : Int) > plane_width bmp i)
    (hfuel : (plane_height bmp i).toNat ≤ fuel)
    (hfit : -2147483648 ≤ (bmp.pitches i : Int) * plane_height bmp i ∧
      (bmp.pitches i : Int) * plane_height bmp i ≤ 2147483647) :
    ∃ s1, border_plane bmp fuel i s = some s1 ∧
      s1.2 = s.2 ++ (List.range (plane_height bmp i).toNat).flatMap (fun k =>
        [Access.read (bmp.pixels i + plane_width bmp i - 1 + (k : Int) * (bmp.pitches i : Nat)),
         Access.write
           (bmp.pixels i + plane_width bmp i - 1 + (k : Int) * (bmp.pitches i : Nat) + 1)]) ∧
      ∀ k : Nat, k < (plane_height bmp i).toNat →
        plane_region bmp i (bmp.pixels i + plane_width bmp i - 1 + (k : Int) * (bmp.pitches i : Nat))
        ∧ plane_region bmp i
          (bmp.pixels i + plane_width bmp i - 1 + (k : Int) * (bmp.pitches i : Nat) + 1) := by
  have hPpos : (0 : Int) ≤ (bmp.pitches i : Int) := by positivity
  have hrow : ∀ k : Nat, k < (plane_height bmp i).toNat →
      (k : Int) * (bmp.pitches i : Int) + plane_width bmp i
        < (bmp.pitches i : Int) * plane_height bmp i := by
    intro k hk
    have hkH : (k : Int) + 1 ≤ plane_height bmp i := by
      have := Int.lt_toNat.mp hk
      linarith
    have : ((k : Int) + 1) * (bmp.pitches i : Int)
        ≤ plane_height bmp i * (bmp.pitches i : Int) := mul_le_mul_of_nonneg_right hkH hPpos
    nlinarith
  have hloop := border_loop_eq_rows_done (bmp.pitches i)
    (bmp.pixels i + (bmp.pitches i : Int) * plane_height bmp i - 1) (plane_height bmp i).toNat
    fuel (bmp.pixels i + plane_width bmp i - 1) s hfuel
    (by intro k hk; have := hrow k hk; linarith)
    (by
      intro h
      have hHn : plane_height bmp i ≤ ((plane_height bmp i).toNat : Int) := Int.self_le_toNat _
      have : plane_height bmp i * (bmp.pitches i : Int)
          ≤ ((plane_height bmp i).toNat : Int) * (bmp.pitches i : Int) :=
        mul_le_mul_of_nonneg_right hHn hPpos
      nlinarith)
  refine ⟨_, by simp only [border_plane, hgt, if_true, int32_of_fits _ hfit]; exact hloop,
    rows_done_accesses _ _ _ _, ?_⟩
  intro k hk
  have h1 := hrow k hk
  have hk0 : (0 : Int) ≤ (k : Int) * (bmp.pitches i : Int) := by positivity
  refine ⟨⟨by linarith, by linarith⟩, ⟨by linarith, by linarith⟩⟩

/-- C1.  `alloc_texture` of the overlay backend returns a handle exactly when the handle struct
could be allocated and the display subsystem, asked for a `width` x `height` overlay, returned a
surface whose plane-0 pitch is at least the width and whose plane-0 and plane-1 origins lie at
least `height * pitch` apart (in absolute value).  The display subsystem is asked only when the
struct could be allocated, and the surfaces granted in the run are then what it returned.  A
handle returned wraps the allocated struct and the granted surface, and nothing is released.
When null is returned the surfaces released are exactly the surfaces granted: a granted surface
is released once, and nothing is released when none was granted. -/
theorem alloc_texture_handle_iff_conforming (env : Env) (width height : Int) :
    ((alloc_texture env width height).1.isSome = true ↔
      ∃ tex b, env.av_malloc = some tex ∧ env.SDL_CreateYUVOverlay width height = some b ∧
        width ≤ (b.pitches 0 : Int) ∧
        height * (b.pitches 0 : Int) ≤ |b.pixels 0 - b.pixels 1|) ∧
    (granted (alloc_texture env width height).2 =
      if env.av_malloc.isSome = true then (env.SDL_CreateYUVOverlay width height).toList
      else []) ∧
    ((alloc_texture env width height).1.isSome = true ↔
      ∃ b, granted (alloc_texture env width height).2 = [b] ∧
        width ≤ (b.pitches 0 : Int) ∧
        height * (b.pitches 0 : Int) ≤ |b.pixels 0 - b.pixels 1|) ∧
    ((alloc_texture env width height).1 = none →
      released (alloc_texture env width height).2 = granted (alloc_texture env width height).2 ∧
      (granted (alloc_texture env width height).2).length ≤ 1) ∧
    (∀ tex, (alloc_texture env width height).1 = some tex →
      released (alloc_texture env width height).2 = [] ∧
      granted (alloc_texture env width height).2 = [tex.priv] ∧
      env.av_malloc = some tex.addr ∧
      env.SDL_CreateYUVOverlay width height = some tex.priv) := by
  unfold alloc_texture
  cases hm : env.av_malloc with
  | none => simp [granted, released]
  | some tex =>
    cases hb : env.SDL_CreateYUVOverlay width height with
    | none => simp [granted, released]
    | some b =>
      have habs : max (b.pixels 0) (b.pixels 1) - min (b.pixels 0) (b.pixels 1)
          = |b.pixels 0 - b.pixels 1| := max_sub_min_eq_abs' _ _
      by_cases hc : (b.pitches 0 : Int) < width ∨
          max (b.pixels 0) (b.pixels 1) - min (b.pixels 0) (b.pixels 1)
            < height * (b.pitches 0 : Int)
      · simp only [hc, if_true]
        rw [habs] at hc
        have hno : ¬ (width ≤ (b.pitches 0 : Int) ∧
            height * (b.pitches 0 : Int) ≤ |b.pixels 0 - b.pixels 1|) := by
          rintro ⟨h1, h2⟩
          rcases hc with h | h
          · exact absurd h1 (not_le.mpr h)
          · exact absurd h2 (not_le.mpr h)
        simp [granted, released, hno]
      · simp only [hc, if_false]
        rw [habs] at hc
        push_neg at hc
        simp [granted, released, hc.1, hc.2]

/-- C10, the failing input.  `overlay_1x2` passes the validation of `alloc_texture(1, 2)`.  Its
chroma planes have logical width 0 and pitch 4, so the pass is entered with
`p = pixels[i] + 0 - 1`: it reads the byte before the origin of plane 1 (address 7, offset -1
from 8) and of plane 2 (address 11, offset -1 from 12). -/
theorem duplicate_right_border_pixels_reads_before_plane :
    (alloc_texture env_1x2 1 2).1 = some ⟨1000, overlay_1x2⟩ ∧
    (duplicate_right_border_pixels overlay_1x2 2 (mem_addr, [])).map (fun r => r.2)
      = some [Access.read 0, Access.write 1, Access.read 4, Access.write 5,
              Access.read 7, Access.write 8, Access.read 11, Access.write 12] ∧
    plane_width overlay_1x2 1 = 0 ∧ plane_height overlay_1x2 1 = 1 ∧
    overlay_1x2.pixels 1 = 8 ∧ overlay_1x2.pixels 2 = 12 := by
  decide

end ffplay_xv

/-- C6.  `free_texture` is idempotent on both backends.  On a live handle it releases every
resource of the handle once (overlay backend: the overlay surface and the handle struct; GPU
backend: the three texture names, the mirror frame, the payload struct and the handle struct) and
nulls the handle variable; on a null handle it releases nothing and leaves the variable null; so
freeing the same variable twice releases exactly what freeing it once releases. -/
theorem free_texture_idempotent :
    (∀ tex : FFplayVideoOutputTexture ffplay_xv.SDL_Overlay,
      (ffplay_xv.free_texture (some tex)).1 = none ∧
      ffplay_xv.released (ffplay_xv.free_texture (some tex)).2 = [tex.priv] ∧
      ffplay_xv.freed (ffplay_xv.free_texture (some tex)).2 = [tex.addr]) ∧
    ((ffplay_xv.free_texture none).1 = none ∧
      ffplay_xv.released (ffplay_xv.free_texture none).2 = [] ∧
      ffplay_xv.freed (ffplay_xv.free_texture none).2 = []) ∧
    (∀ texp : Option (FFplayVideoOutputTexture ffplay_xv.SDL_Overlay),
      (ffplay_xv.free_texture (ffplay_xv.free_texture texp).1).1 = none ∧
      ffplay_xv.released ((ffplay_xv.free_texture texp).2 ++
          (ffplay_xv.free_texture (ffplay_xv.free_texture texp).1).2)
        = ffplay_xv.released (ffplay_xv.free_texture texp).2 ∧
      ffplay_xv.freed ((ffplay_xv.free_texture texp).2 ++
          (ffplay_xv.free_texture (ffplay_xv.free_texture texp).1).2)
        = ffplay_xv.freed (ffplay_xv.free_texture texp).2) ∧
    (∀ tex : FFplayVideoOutputTexture ffplay_gl.GLOverlayPtr,
      (ffplay_gl.free_texture (some tex)).1 = none ∧
      ffplay_gl.deleted (ffplay_gl.free_texture (some tex)).2
        = [tex.priv.obj.textures 0, tex.priv.obj.textures 1, tex.priv.obj.textures 2] ∧
      ffplay_gl.frame_unrefs (ffplay_gl.free_texture (some tex)).2 = 1 ∧
      ffplay_gl.freed (ffplay_gl.free_texture (some tex)).2 = [tex.priv.addr, tex.addr]) ∧
    ((ffplay_gl.free_texture none).1 = none ∧
      ffplay_gl.deleted (ffplay_gl.free_texture none).2 = [] ∧
      ffplay_gl.frame_unrefs (ffplay_gl.free_texture none).2 = 0 ∧
      ffplay_gl.freed (ffplay_gl.free_texture none).2 = []) ∧
    (∀ texp : Option (FFplayVideoOutputTexture ffplay_gl.GLOverlayPtr),
      (ffplay_gl.free_texture (ffplay_gl.free_texture texp).1).1 = none ∧
      ffplay_gl.deleted ((ffplay_gl.free_texture texp).2 ++
          (ffplay_gl.free_texture (ffplay_gl.free_texture texp).1).2)
        = ffplay_gl.deleted (ffplay_gl.free_texture texp).2 ∧
      ffplay_gl.frame_unrefs ((ffplay_gl.free_texture texp).2 ++
          (ffplay_gl.free_texture (ffplay_gl.free_texture texp).1).2)
        = ffplay_gl.frame_unrefs (ffplay_gl.free_texture texp).2 ∧
      ffplay_gl.freed ((ffplay_gl.free_texture texp).2 ++
          (ffplay_gl.free_texture (ffplay_gl.free_texture texp).1).2)
        = ffplay_gl.freed (ffplay_gl.free_texture texp).2) := by
  refine ⟨fun tex => ⟨rfl, rfl, rfl⟩, ⟨rfl, rfl, rfl⟩, ?_, fun tex => ⟨rfl, rfl, rfl, rfl⟩,
    ⟨rfl, rfl, rfl, rfl⟩, ?_⟩
  · intro texp
    cases texp <;> exact ⟨rfl, rfl, rfl⟩
  · intro texp
    cases texp <;> exact ⟨rfl, rfl, rfl, rfl⟩

namespace ffplay_gl

theorem char_toNat_ne {x y : Char} (h : x ≠ y) : (x.toNat : Int) - (y.toNat : Int) ≠ 0 := by
  intro h0
  apply h
  have : x.toNat = y.toNat := by omega
  rw [← Char.ofNat_toNat x, ← Char.ofNat_toNat y, this]

theorem strncmp_eq_zero_iff (b : List Char) (hb : NUL ∉ b) :
    ∀ a : List Char, NUL ∉ a → (strncmp a b b.length = 0 ↔ b <+: a) := by
  induction b with
  | nil => intro a _; simp [strncmp]
  | cons y ys ih =>
    intro a ha
    have hy : y ≠ NUL := fun h => hb (by simp [h])
    have hys : NUL ∉ ys := fun h => hb (List.mem_cons_of_mem _ h)
    cases a with
    | nil =>
      simp only [List.length_cons, strncmp, List.headD_nil, List.headD_cons, ne_eq,
        List.tail_nil, List.tail_cons]
      rw [if_pos (Ne.symm hy)]
      simp [char_toNat_ne (Ne.symm hy)]
    | cons x xs =>
      have hx : x ≠ NUL := fun h => ha (by simp [h])
      have hxs : NUL ∉ xs := fun h => ha (List.mem_cons_of_mem _ h)
      simp only [List.length_cons, strncmp, List.headD_cons, ne_eq, List.tail_cons]
      by_cases hxy : x = y
      · subst hxy
        simp only [not_true_eq_false, if_false, hx]
        rw [ih hys xs hxs]
        simp [List.cons_prefix_cons]
      · simp only [hxy, not_false_eq_true, if_true]
        simp only [char_toNat_ne hxy, List.cons_prefix_cons, false_iff, not_and]
        exact fun h => absurd h.symm hxy

theorem match_iff_starts_token (api s : List Char) (hapi : NUL ∉ api) (hs : NUL ∉ s) :
    (strncmp s api api.length = 0 ∧
      (s.getD api.length NUL = ' ' ∨ s.getD api.length NUL = NUL)) ↔ starts_token api s := by
  rw [strncmp_eq_zero_iff api hapi s hs]
  constructor
  · rintro ⟨⟨post, rfl⟩, hd⟩
    refine ⟨post, rfl, ?_⟩
    rw [List.getD_append_right _ _ _ _ (le_refl _)] at hd
    cases post with
    | nil => exact Or.inl rfl
    | cons c cs =>
      right
      have hc : c ≠ NUL := fun h => hs (by simp [h])
      simpa [hc] using hd
  · rintro ⟨post, rfl, hpost⟩
    refine ⟨⟨post, rfl⟩, ?_⟩
    rw [List.getD_append_right _ _ _ _ (le_refl _)]
    rcases hpost with rfl | h
    · right; simp
    · cases post with
      | nil => simp at h
      | cons c cs => left; simpa using h

theorem is_token_iff (api s : List Char) :
    is_token api s ↔ starts_token api s ∨ later_token api s := by
  constructor
  · rintro ⟨pre, post, rfl, hpre, hpost⟩
    rcases hpre with rfl | hpre
    · exact Or.inl ⟨post, by simp, hpost⟩
    · exact Or.inr ⟨pre, post, rfl, hpre, hpost⟩
  · rintro (⟨post, rfl, hpost⟩ | ⟨pre, post, rfl, hpre, hpost⟩)
    · exact ⟨[], post, by simp, Or.inl rfl, hpost⟩
    · exact ⟨pre, post, rfl, Or.inr hpre, hpost⟩

theorem not_starts_token_space (api s : List Char) (hne : api ≠ []) (hsp : ' ' ∉ api) :
    ¬ starts_token api (' ' :: s) := by
  rintro ⟨post, h, _⟩
  cases api with
  | nil => exact hne rfl
  | cons a as =>
    simp only [List.cons_append, List.cons.injEq] at h
    exact hsp (by rw [← h.1]; exact List.mem_cons_self _ _)

theorem later_token_cons (api s : List Char) (x : Char) (hx : x ≠ ' ') :
    later_token api (x :: s) ↔ later_token api s := by
  constructor
  · rintro ⟨pre, post, h, hpre, hpost⟩
    cases pre with
    | nil => simp at hpre
    | cons p pre1 =>
      simp only [List.cons_append, List.cons.injEq] at h
      obtain ⟨rfl, rfl⟩ := h
      cases pre1 with
      | nil => simp at hpre; exact absurd hpre hx
      | cons q pre2 =>
        exact ⟨q :: pre2, post, rfl, by simpa [List.getLast?_cons_cons] using hpre, hpost⟩
  · rintro ⟨pre, post, rfl, hpre, hpost⟩
    cases pre with
    | nil => simp at hpre
    | cons q pre2 =>
      exact ⟨x :: q :: pre2, post, rfl, by simpa [List.getLast?_cons_cons] using hpre, hpost⟩

theorem is_token_space (api s : List Char) (hne : api ≠ []) (hsp : ' ' ∉ api) :
    is_token api (' ' :: s) ↔ is_token api s := by
  constructor
  · rintro ⟨pre, post, h, hpre, hpost⟩
    cases pre with
    | nil =>
      exact absurd ⟨post, by simpa using h, hpost⟩ (not_starts_token_space api s hne hsp)
    | cons p pre1 =>
      simp only [List.cons_append, List.cons.injEq] at h
      obtain ⟨rfl, rfl⟩ := h
      refine ⟨pre1, post, rfl, ?_, hpost⟩
      cases pre1 with
      | nil => exact Or.inl rfl
      | cons q pre2 =>
        right
        rcases hpre with hpre | hpre
        · simp at hpre
        · simpa [List.getLast?_cons_cons] using hpre
  · rintro ⟨pre, post, rfl, hpre, hpost⟩
    refine ⟨' ' :: pre, post, rfl, Or.inr ?_, hpost⟩
    rcases hpre with rfl | hpre
    · rfl
    · cases pre with
      | nil => simp at hpre
      | cons q pre2 => simpa [List.getLast?_cons_cons] using hpre

theorem strchr_spec (api : List Char) (hne : api ≠ []) (hsp : ' ' ∉ api) :
    ∀ s : List Char,
      (∃ rest, strchr s ' ' = some rest ∧ is_token api rest) ↔ later_token api s := by
  intro s
  induction s with
  | nil =>
    simp only [strchr, reduceCtorEq, false_and, exists_false, false_iff]
    rintro ⟨pre, post, h, hpre, _⟩
    have : pre = [] := by
      have := congrArg List.length h
      simp only [List.length_nil, List.length_append] at this
      exact List.length_eq_zero.mp (by omega)
    simp [this] at hpre
  | cons x xs ih =>
    by_cases hx : x = ' '
    · subst hx
      simp only [strchr, if_true, Option.some.injEq, exists_eq_left']
      rw [is_token_iff]
      constructor
      · rintro (h | h)
        · exact absurd h (not_starts_token_space api xs hne hsp)
        · exact h
      · exact Or.inr
    · simp only [strchr, hx, if_false]
      rw [ih, later_token_cons api xs x hx]

theorem skip_spaces_facts (s : List Char) :
    (skip_spaces s).length ≤ s.length ∧ (∀ z, z ∈ skip_spaces s → z ∈ s) ∧
      (skip_spaces s).head? ≠ some ' ' := by
  induction s with
  | nil => simp [skip_spaces]
  | cons x xs ih =>
    by_cases hx : x = ' '
    · simp only [skip_spaces, hx, if_true, List.length_cons]
      exact ⟨by omega, fun z hz => List.mem_cons_of_mem _ (ih.2.1 z hz), ih.2.2⟩
    · simp [skip_spaces, hx]

theorem is_token_skip_spaces (api : List Char) (hne : api ≠ []) (hsp : ' ' ∉ api) :
    ∀ s : List Char, is_token api (skip_spaces s) ↔ is_token api s := by
  intro s
  induction s with
  | nil => simp [skip_spaces]
  | cons x xs ih =>
    by_cases hx : x = ' '
    · subst hx
      simp only [skip_spaces, if_true]
      rw [ih, is_token_space api xs hne hsp]
    · simp [skip_spaces, hx]

theorem strchr_facts (c : Char) :
    ∀ (s rest : List Char), strchr s c = some rest →
      rest.length ≤ s.length ∧ (∀ z, z ∈ rest → z ∈ s) ∧
        (s.head? ≠ some c → rest.length < s.length) := by
  intro s
  induction s with
  | nil => intro rest h; simp [strchr] at h
  | cons x xs ih =>
    intro rest h
    by_cases hx : x = c
    · simp only [strchr, hx, if_true, Option.some.injEq] at h
      subst h
      simp [hx]
    · simp only [strchr, hx, if_false] at h
      obtain ⟨h1, h2, _⟩ := ih rest h
      refine ⟨by simp only [List.length_cons]; omega,
        fun z hz => List.mem_cons_of_mem _ (h2 z hz), fun _ => ?_⟩
      simp only [List.length_cons]
      omega

theorem has_extension_spec (api : List Char) (hapi : NUL ∉ api) (hne : api ≠ [])
    (hsp : ' ' ∉ api) :
    ∀ (n : Nat) (s : List Char), s.length ≤ n → NUL ∉ s →
      (has_extension (some s) api = 1 ↔ is_token api s) ∧
        (has_extension (some s) api = 1 ∨ has_extension (some s) api = 0) := by
  intro n
  induction n with
  | zero =>
    intro s hlen hs
    have : s = [] := List.length_eq_zero.mp (by omega)
    subst this
    have hno : ¬ is_token api [] := by
      rintro ⟨pre, post, h, _, _⟩
      have := congrArg List.length h
      simp only [List.length_nil, List.length_append] at this
      exact hne (List.length_eq_zero.mp (by omega))
    have hm := match_iff_starts_token api (skip_spaces []) hapi (by simp [skip_spaces])
    have hst : ¬ starts_token api (skip_spaces []) := by
      intro h
      exact hno ((is_token_iff api []).mpr (Or.inl (by simpa [skip_spaces] using h)))
    rw [has_extension, if_neg (fun h => hst (hm.mp h))]
    simp [skip_spaces, strchr, has_extension, hno]
  | succ n ih =>
    intro s hlen hs
    obtain ⟨hl, hmem, hhead⟩ := skip_spaces_facts s
    have hs1 : NUL ∉ skip_spaces s := fun h => hs (hmem _ h)
    have hm := match_iff_starts_token api (skip_spaces s) hapi hs1
    have htok := is_token_skip_spaces api hne hsp s
    rw [has_extension]
    by_cases hc : strncmp (skip_spaces s) api api.length = 0 ∧
        ((skip_spaces s).getD api.length NUL = ' ' ∨ (skip_spaces s).getD api.length NUL = NUL)
    · rw [if_pos hc]
      have : is_token api s := htok.mp ((is_token_iff _ _).mpr (Or.inl (hm.mp hc)))
      simp [this]
    · rw [if_neg hc]
      have hst : ¬ starts_token api (skip_spaces s) := fun h => hc (hm.mpr h)
      have hlater := strchr_spec api hne hsp (skip_spaces s)
      cases hr : strchr (skip_spaces s) ' ' with
      | none =>
        have hno : ¬ is_token api s := by
          intro h
          rcases (is_token_iff _ _).mp (htok.mpr h) with h1 | h1
          · exact hst h1
          · obtain ⟨rest, h2, _⟩ := hlater.mpr h1
            rw [hr] at h2
            exact absurd h2 (by simp)
        simp [has_extension, hno]
      | some rest =>
        obtain ⟨_, hrm, hrl⟩ := strchr_facts ' ' (skip_spaces s) rest hr
        have hrest := ih rest (by have := hrl hhead; omega) (fun h => hs1 (hrm _ h))
        refine ⟨?_, hrest.2⟩
        rw [hrest.1, ← htok, is_token_iff api (skip_spaces s), ← hlater, hr]
        simp [hst]

/-- C9.  For every C string `apis` and every non-empty C string `api` without a space,
`has_extension(apis, api)` (a total function: its loop terminates) returns 1 if `api` is one of
the maximal space-separated tokens of `apis` and 0 otherwise.  In particular a single token of
which `api` is only a proper prefix is not a match. -/
theorem has_extension_matches_whole_tokens (apis api : List Char)
    (hapis : NUL ∉ apis) (hapi : NUL ∉ api) (hne : api ≠ []) (hsp : ' ' ∉ api) :
    (has_extension (some apis) api = 1 ↔ is_token api apis) ∧
    (has_extension (some apis) api = 0 ↔ ¬ is_token api apis) ∧
    (∀ x : List Char, x ≠ [] → ' ' ∉ x → NUL ∉ x → has_extension (some (api ++ x)) api = 0) := by
  have key := fun s (hs : NUL ∉ s) => has_extension_spec api hapi hne hsp s.length s le_rfl hs
  have zero_iff : ∀ s, NUL ∉ s → (has_extension (some s) api = 0 ↔ ¬ is_token api s) := by
    intro s hs
    obtain ⟨h1, h2⟩ := key s hs
    constructor
    · intro h0 ht
      rw [h1.mpr ht] at h0
      exact absurd h0 (by decide)
    · intro hn
      rcases h2 with h | h
      · exact absurd (h1.mp h) hn
      · exact h
  refine ⟨(key apis hapis).1, zero_iff apis hapis, ?_⟩
  intro x hx hxsp hxn
  have hs : NUL ∉ api ++ x := by
    simp only [List.mem_append, not_or]
    exact ⟨hapi, hxn⟩
  rw [zero_iff _ hs]
  rintro ⟨pre, post, h, hpre, hpost⟩
  have hnosp : ' ' ∉ api ++ x := by
    simp only [List.mem_append, not_or]
    exact ⟨hsp, hxsp⟩
  rcases hpre with rfl | hpre
  · simp only [List.nil_append, List.append_cancel_left_eq] at h
    subst h
    rcases hpost with h0 | h0
    · exact hx h0
    · exact hxsp (List.mem_of_mem_head? h0)
  · apply hnosp
    rw [h]
    have := List.mem_of_mem_getLast? hpre
    simp [this]

/-- C9, at a list with leading, repeated and trailing spaces and a longer name first. -/
theorem has_extension_matches_whole_tokens_witness :
    NUL ∉ "  GL_ARB_fragment_program_shadow  GL_ARB_fragment_program ".toList ∧
    NUL ∉ "GL_ARB_fragment_program".toList ∧
    "GL_ARB_fragment_program".toList ≠ [] ∧
    ' ' ∉ "GL_ARB_fragment_program".toList ∧
    (has_extension (some "  GL_ARB_fragment_program_shadow  GL_ARB_fragment_program ".toList)
        "GL_ARB_fragment_program".toList = 1 ↔
      is_token "GL_ARB_fragment_program".toList
        "  GL_ARB_fragment_program_shadow  GL_ARB_fragment_program ".toList) :=
  ⟨by decide, by decide, by decide, by decide,
    (has_extension_matches_whole_tokens
      "  GL_ARB_fragment_program_shadow  GL_ARB_fragment_program ".toList
      "GL_ARB_fragment_program".toList (by decide) (by decide) (by decide) (by decide)).1⟩

/-- C8, the claim as written fails.  For uniform mid-level input the output of the
high-definition matrix differs from the output of the standard-definition matrix by at least
1/255 in no channel. -/
theorem mid_gray_not_distinguishable :
    ¬ ∃ c : Fin 3, (1 : ℚ) / 255 ≤ |mid_gray_bt709 c - mid_gray_bt601 c| := by
  rintro ⟨c, hc⟩
  revert hc
  fin_cases c <;>
    simp only [mid_gray_bt709, mid_gray_bt601, fragment_program_eval, mid_level,
      matrix_bt709_tv2full, matrix_bt601_tv2full] <;>
    norm_num [abs_le, le_abs]

/-- C8 (amended).  Evaluated in exact rational arithmetic at Y = Cb = Cr = 128/255, the
fragment program with the high-definition matrix gives a near-neutral gray (R, G and B differ
from each other by less than 1/255), and in every channel this output differs from the output of
the standard-definition matrix by less than 1/255. -/
theorem mid_gray_near_neutral_and_close :
    (∀ c d : Fin 3, |mid_gray_bt709 c - mid_gray_bt709 d| < 1 / 255) ∧
    (∀ c : Fin 3, |mid_gray_bt709 c - mid_gray_bt601 c| < 1 / 255) := by
  constructor
  · intro c d
    fin_cases c <;> fin_cases d <;>
      simp only [mid_gray_bt709, fragment_program_eval, mid_level, matrix_bt709_tv2full] <;>
      norm_num [abs_lt]
  · intro c
    fin_cases c <;>
      simp only [mid_gray_bt709, mid_gray_bt601, fragment_program_eval, mid_level,
        matrix_bt709_tv2full, matrix_bt601_tv2full] <;>
      norm_num [abs_lt]

theorem alloc_texture_initialized (env : Env) (g : Globals) (width height : Int)
    (hinit : g.initialized ≠ 0) :
    (alloc_texture env g width height).2.1 = g ∧
      initialize_gl_calls (alloc_texture env g width height).2.2 = 0 := by
  unfold alloc_texture
  cases env.av_malloc with
  | none => exact ⟨rfl, rfl⟩
  | some tex =>
    cases hc : env.av_calloc with
    | none => exact ⟨rfl, rfl⟩
    | some ctx =>
      have he : ensure_initialized env g = (1, g, []) := by
        simp [ensure_initialized, hinit]
      simp only [he, one_ne_zero, if_false, List.append_nil]
      split
      · exact ⟨rfl, rfl⟩
      · split
        · exact ⟨rfl, rfl⟩
        · exact ⟨rfl, rfl⟩

theorem initialize_gl_calls_append (a b : List Event) :
    initialize_gl_calls (a ++ b) = initialize_gl_calls a + initialize_gl_calls b := by
  induction a with
  | nil => simp [initialize_gl_calls]
  | cons e tr ih =>
    cases e <;> simp [initialize_gl_calls, ih]
    omega

theorem alloc_many_initialized (calls : List (Env × Int × Int)) :
    ∀ g : Globals, g.initialized ≠ 0 →
      (alloc_many g calls).1 = g ∧ initialize_gl_calls (alloc_many g calls).2 = 0 := by
  induction calls with
  | nil => intro g _; exact ⟨rfl, rfl⟩
  | cons c cs ih =>
    intro g hinit
    obtain ⟨h1, h2⟩ := alloc_texture_initialized c.1 g c.2.1 c.2.2 hinit
    simp only [alloc_many, h1, initialize_gl_calls_append, h2, zero_add]
    exact ih g hinit

theorem has_extension_env_ok :
    has_extension env_ok.glGetString_EXTENSIONS "GL_ARB_multitexture".toList = 1 ∧
    has_extension env_ok.glGetString_EXTENSIONS "GL_ARB_texture_non_power_of_two".toList = 1 ∧
    has_extension env_ok.glGetString_EXTENSIONS "GL_ARB_fragment_program".toList = 1 := by
  refine ⟨?_, ?_, ?_⟩ <;> simp [env_ok, has_extension, skip_spaces, strncmp, strchr, NUL]

theorem alloc_texture_env_ok_globals (width height : Int) :
    (alloc_texture env_ok Globals.init width height).2.1 = globals_ready := by
  obtain ⟨h1, h2, h3⟩ := has_extension_env_ok
  have hi : (initialize_gl env_ok Globals.init).1 = 1 ∧
      (initialize_gl env_ok Globals.init).2.1 = { globals_ready with initialized := 0 } := by
    simp only [initialize_gl, h1, h2, h3]
    simp [env_ok, Globals.init, globals_ready]
  have he : (ensure_initialized env_ok Globals.init).1 = 1 ∧
      (ensure_initialized env_ok Globals.init).2.1 = globals_ready := by
    simp only [ensure_initialized, show Globals.init.initialized = 0 from rfl, if_true, hi.1,
      hi.2, one_ne_zero, if_false, true_and]
    rfl
  unfold alloc_texture
  simp only [show env_ok.av_malloc = some 1000 from rfl, show env_ok.av_calloc = some 2000 from rfl,
    he.1, he.2, one_ne_zero, if_false]
  split
  · rfl
  · split <;> rfl

/-- C7.  Once an `alloc_texture` call of the GPU backend has left `initialized = 1`, that is
once `initialize_gl` has succeeded, every later series of `alloc_texture` calls, whatever the
collaborators answer and whether the calls succeed or fail, leaves all the file-scope variables
(entry points, maximum texture size, maximum texture units, fragment program name, initialized
flag) as they are and never enters `initialize_gl`. -/
theorem alloc_texture_never_reinitializes (env : Env) (g : Globals) (width height : Int)
    (hinit : (alloc_texture env g width height).2.1.initialized = 1)
    (calls : List (Env × Int × Int)) :
    (alloc_many (alloc_texture env g width height).2.1 calls).1
        = (alloc_texture env g width height).2.1 ∧
      initialize_gl_calls (alloc_many (alloc_texture env g width height).2.1 calls).2 = 0 :=
  alloc_many_initialized calls _ (by rw [hinit]; exact one_ne_zero)

/-- C7, after a first allocation that initializes against `env_ok`, followed by a successful, an
oversized and a failing allocation, the last two against collaborators that would now fail the
initialization. -/
theorem alloc_texture_never_reinitializes_witness :
    (alloc_texture env_ok Globals.init 352 288).2.1.initialized = 1 ∧
    (alloc_many (alloc_texture env_ok Globals.init 352 288).2.1
        [(env_ok, 720, 576), ({ env_ok with glGetString_EXTENSIONS := none }, 8192, 16),
         ({ env_no_buffer with SDL_GL_GetProcAddress := fun _ => none }, 16, 16)]).1
      = (alloc_texture env_ok Globals.init 352 288).2.1 ∧
    initialize_gl_calls (alloc_many (alloc_texture env_ok Globals.init 352 288).2.1
        [(env_ok, 720, 576), ({ env_ok with glGetString_EXTENSIONS := none }, 8192, 16),
         ({ env_no_buffer with SDL_GL_GetProcAddress := fun _ => none }, 16, 16)]).2 = 0 :=
  ⟨by rw [alloc_texture_env_ok_globals]; rfl,
    alloc_texture_never_reinitializes env_ok Globals.init 352 288
      (by rw [alloc_texture_env_ok_globals]; rfl) _⟩

/-- C5, the failing input.  With the GPU state initialized and both structs allocated, a
352x288 allocation whose mirror buffer cannot be obtained returns null after `glGenTextures`
created the names 11, 12, 13: both structs are freed, but no texture name is deleted. -/
theorem alloc_texture_leaks_texture_names :
    (alloc_texture env_no_buffer globals_ready 352 288).1 = none ∧
    generated (alloc_texture env_no_buffer globals_ready 352 288).2.2 = [11, 12, 13] ∧
    deleted (alloc_texture env_no_buffer globals_ready 352 288).2.2 = [] ∧
    allocated (alloc_texture env_no_buffer globals_ready 352 288).2.2 = [1000, 2000] ∧
    freed (alloc_texture env_no_buffer globals_ready 352 288).2.2 = [2000, 1000] := by
  refine ⟨?_, ?_, ?_, ?_, ?_⟩ <;> rfl

theorem uploads_append (a b : List Event) : uploads (a ++ b) = uploads a ++ uploads b := by
  induction a with
  | nil => rfl
  | cons e tr ih => cases e <;> simp [uploads, ih]

theorem local_parameters_append (a b : List Event) :
    local_parameters (a ++ b) = local_parameters a ++ local_parameters b := by
  induction a with
  | nil => rfl
  | cons e tr ih => cases e <;> simp [local_parameters, ih]

theorem local_parameters_load_plane (ctx : GLOverlay) (data linesize : Fin 3 → Int)
    (i : Fin 3) : local_parameters (load_plane ctx data linesize i) = [] := by
  simp only [load_plane, local_parameters_append]
  split <;> rfl

theorem uploads_load_plane (ctx : GLOverlay) (data linesize : Fin 3 → Int) (i : Fin 3) :
    uploads (load_plane ctx data linesize i) = [data i] := by
  simp only [load_plane, uploads_append]
  split <;> rfl

theorem uploads_blend_rects (env : Env) (w h : Int) (rects : List Nat) :
    ∀ s : AVFrame × List Event, uploads (blend_rects env w h rects s).2 = uploads s.2 := by
  induction rects with
  | nil => intro s; rfl
  | cons r rs ih =>
    intro s
    rw [blend_rects, ih]
    simp [uploads_append, uploads]

theorem display_texture_local_parameters (g : Globals) (ctx : GLOverlay) (rect : SDL_Rect) :
    local_parameters (display_texture g ctx rect).2 =
      if ctx.h > 576 then
        [(0, matrix_bt709_tv2full 0), (1, matrix_bt709_tv2full 1),
         (2, matrix_bt709_tv2full 2), (3, matrix_bt709_tv2full 3)]
      else
        [(0, matrix_bt601_tv2full 0), (1, matrix_bt601_tv2full 1),
         (2, matrix_bt601_tv2full 2), (3, matrix_bt601_tv2full 3)] := by
  have hload : local_parameters
      (if ctx.texture_ready = 0 then load_texture ctx ctx.frame.data ctx.frame.linesize
        else (ctx, [])).2 = [] := by
    split
    · simp [load_texture, local_parameters_append, local_parameters_load_plane]
    · rfl
  unfold display_texture
  simp only [local_parameters_append, hload]
  split <;> simp [local_parameters]

theorem display_texture_uploads (g : Globals) (ctx : GLOverlay) (rect : SDL_Rect) :
    uploads (display_texture g ctx rect).2 =
      if ctx.texture_ready = 0 then [ctx.frame.data 0, ctx.frame.data 1, ctx.frame.data 2]
      else [] := by
  have hload : uploads
      (if ctx.texture_ready = 0 then load_texture ctx ctx.frame.data ctx.frame.linesize
        else (ctx, [])).2 =
      if ctx.texture_ready = 0 then [ctx.frame.data 0, ctx.frame.data 1, ctx.frame.data 2]
      else [] := by
    split
    · simp only [load_texture, uploads_append, uploads_load_plane]
      rfl
    · rfl
  unfold display_texture
  simp only [uploads_append, hload]
  simp [uploads]

theorem alloc_texture_some (env : Env) (g : Globals) (width height : Int)
    (tex : FFplayVideoOutputTexture GLOverlayPtr)
    (h : (alloc_texture env g width height).1 = some tex) :
    tex.priv.obj.w = width ∧ tex.priv.obj.h = height ∧ tex.priv.obj.texture_ready = 0 ∧
      tex.priv.obj.texture_initialized = 0 ∧ tex.priv.obj.textures = env.glGenTextures := by
  unfold alloc_texture at h
  cases hm : env.av_malloc with
  | none => simp [hm] at h
  | some t =>
    cases hc : env.av_calloc with
    | none => simp [hm, hc] at h
    | some c =>
      simp only [hm, hc] at h
      generalize ensure_initialized env g = init at h
      split at h
      · simp at h
      · split at h
        · simp at h
        · split at h
          · simp at h
          · simp only [Option.some.injEq] at h
            subst h
            exact ⟨rfl, rfl, rfl, rfl, rfl⟩

theorem display_texture_state (g : Globals) (ctx : GLOverlay) (rect : SDL_Rect) :
    (display_texture g ctx rect).1.h = ctx.h ∧ (display_texture g ctx rect).1.w = ctx.w ∧
      (display_texture g ctx rect).1.frame = ctx.frame ∧
      (display_texture g ctx rect).1.texture_ready ≠ 0 := by
  unfold display_texture
  by_cases hr : ctx.texture_ready = 0
  · simp [hr, load_texture]
  · simp [hr]

theorem step_h (env : Env) (g : Globals) (ctx : GLOverlay) (op : Op) :
    (step env g ctx op).1.h = ctx.h := by
  cases op with
  | fill src c => cases c <;> rfl
  | blend sub => rfl
  | display rect => exact (display_texture_state g ctx rect).1

theorem run_h (env : Env) (g : Globals) (ops : List Op) :
    ∀ ctx : GLOverlay, (run env g ctx ops).h = ctx.h := by
  induction ops with
  | nil => intro ctx; rfl
  | cons op ops ih => intro ctx; rw [run, ih, step_h]

theorem run_ready (env : Env) (g : Globals) (ops : List Op) :
    ∀ (ctx : GLOverlay) (d : Nat), (ctx.texture_ready = 0 ↔ 0 < d) →
      ((run env g ctx ops).texture_ready = 0 ↔ 0 < dirty_count ops d) := by
  induction ops with
  | nil => intro ctx d h; exact h
  | cons op ops ih =>
    intro ctx d h
    cases op with
    | fill src c =>
      rw [run, dirty_count]
      apply ih
      cases c <;> simp [step, fill_texture]
    | blend sub =>
      rw [run, dirty_count]
      apply ih
      simp [step, blend_texture]
    | display rect =>
      rw [run, dirty_count]
      apply ih
      simp only [step, lt_self_iff_false, iff_false]
      exact (display_texture_state g ctx rect).2.2.2

theorem alloc_texture_env_ok_ready (width height : Int) (hw : width ≤ 4096)
    (hh : height ≤ 4096) :
    (alloc_texture env_ok globals_ready width height).1 = some (handle_ok width height) := by
  have he : ensure_initialized env_ok globals_ready = (1, globals_ready, []) := rfl
  unfold alloc_texture
  simp only [show env_ok.av_malloc = some 1000 from rfl, show env_ok.av_calloc = some 2000 from rfl,
    he, one_ne_zero, if_false, show globals_ready.max_texture_size = 4096 from rfl,
    show globals_ready.max_texture_units = 8 from rfl]
  rw [if_neg (by omega), if_neg (by simp [env_ok])]
  rfl

/-- C2.  For a handle that `alloc_texture` returned for the requested `height`, after any calls
of fill, blend and display, `display_texture` hands the fragment program the four rows of
`matrix_bt601_tv2full` when `height <= 576` and the four rows of `matrix_bt709_tv2full` when
`height >= 577`. -/
theorem display_texture_matrix_by_height (env : Env) (g : Globals) (width height : Int)
    (tex : FFplayVideoOutputTexture GLOverlayPtr)
    (halloc : (alloc_texture env g width height).1 = some tex)
    (env2 : Env) (g2 : Globals) (ops : List Op) (rect : SDL_Rect) :
    (height ≤ 576 →
      local_parameters (display_texture g2 (run env2 g2 tex.priv.obj ops) rect).2 =
        [(0, matrix_bt601_tv2full 0), (1, matrix_bt601_tv2full 1),
         (2, matrix_bt601_tv2full 2), (3, matrix_bt601_tv2full 3)]) ∧
    (577 ≤ height →
      local_parameters (display_texture g2 (run env2 g2 tex.priv.obj ops) rect).2 =
        [(0, matrix_bt709_tv2full 0), (1, matrix_bt709_tv2full 1),
         (2, matrix_bt709_tv2full 2), (3, matrix_bt709_tv2full 3)]) := by
  have hh : (run env2 g2 tex.priv.obj ops).h = height := by
    rw [run_h, (alloc_texture_some env g width height tex halloc).2.1]
  rw [display_texture_local_parameters, hh]
  constructor
  · intro h
    rw [if_neg (by omega)]
  · intro h
    rw [if_pos (by omega)]

/-- C2, at the two boundary heights: 576 selects the standard-definition rows, 577 the
high-definition rows, here after a fill and a blend. -/
theorem display_texture_matrix_by_height_witness :
    ((alloc_texture env_ok globals_ready 720 576).1 = some (handle_ok 720 576) ∧
      local_parameters (display_texture globals_ready
          (run env_ok globals_ready (handle_ok 720 576).priv.obj
            [Op.fill frame_src none, Op.blend [1, 2]]) rect_full).2 =
        [(0, matrix_bt601_tv2full 0), (1, matrix_bt601_tv2full 1),
         (2, matrix_bt601_tv2full 2), (3, matrix_bt601_tv2full 3)]) ∧
    ((alloc_texture env_ok globals_ready 720 577).1 = some (handle_ok 720 577) ∧
      local_parameters (display_texture globals_ready
          (run env_ok globals_ready (handle_ok 720 577).priv.obj
            [Op.fill frame_src none, Op.blend [1, 2]]) rect_full).2 =
        [(0, matrix_bt709_tv2full 0), (1, matrix_bt709_tv2full 1),
         (2, matrix_bt709_tv2full 2), (3, matrix_bt709_tv2full 3)]) :=
  ⟨⟨alloc_texture_env_ok_ready 720 576 (by decide) (by decide),
      (display_texture_matrix_by_height env_ok globals_ready 720 576 (handle_ok 720 576)
        (alloc_texture_env_ok_ready 720 576 (by decide) (by decide)) env_ok globals_ready
        [Op.fill frame_src none, Op.blend [1, 2]] rect_full).1 (by decide)⟩,
    ⟨alloc_texture_env_ok_ready 720 577 (by decide) (by decide),
      (display_texture_matrix_by_height env_ok globals_ready 720 577 (handle_ok 720 577)
        (alloc_texture_env_ok_ready 720 577 (by decide) (by decide)) env_ok globals_ready
        [Op.fill frame_src none, Op.blend [1, 2]] rect_full).2 (by decide)⟩⟩

/-- C4.  On a handle returned by `alloc_texture`, after any history `pre` of fill, blend and
display calls: a fill uploads nothing, a blend uploads nothing, and a display uploads the three
planes of the mirror frame, each once, when at least one dirtying operation (the allocation, a
fill or a blend) happened since the previous display, and nothing otherwise.  Hence the planes
uploaded by a display never outnumber three times the dirtying operations since the last
display, and a display that directly follows a display uploads nothing. -/
theorem display_uploads_once_per_dirtying (env : Env) (g : Globals) (width height : Int)
    (tex : FFplayVideoOutputTexture GLOverlayPtr)
    (halloc : (alloc_texture env g width height).1 = some tex)
    (env2 : Env) (g2 : Globals) (pre : List Op) :
    (∀ src c, uploads (fill_texture env2 (run env2 g2 tex.priv.obj pre) src c).2 = []) ∧
    (∀ sub, uploads (blend_texture env2 (run env2 g2 tex.priv.obj pre) sub).2 = []) ∧
    (∀ rect, uploads (display_texture g2 (run env2 g2 tex.priv.obj pre) rect).2 =
      if dirty_count pre 1 = 0 then []
      else [(run env2 g2 tex.priv.obj pre).frame.data 0,
            (run env2 g2 tex.priv.obj pre).frame.data 1,
            (run env2 g2 tex.priv.obj pre).frame.data 2]) ∧
    (∀ rect, (uploads (display_texture g2 (run env2 g2 tex.priv.obj pre) rect).2).length
      ≤ 3 * dirty_count pre 1) ∧
    (∀ rect rect2, uploads (display_texture g2
        (display_texture g2 (run env2 g2 tex.priv.obj pre) rect).1 rect2).2 = []) := by
  have h0 : tex.priv.obj.texture_ready = 0 :=
    (alloc_texture_some env g width height tex halloc).2.2.1
  have hready := run_ready env2 g2 pre tex.priv.obj 1 (by simp [h0])
  have hdisp : ∀ rect, uploads (display_texture g2 (run env2 g2 tex.priv.obj pre) rect).2 =
      if dirty_count pre 1 = 0 then []
      else [(run env2 g2 tex.priv.obj pre).frame.data 0,
            (run env2 g2 tex.priv.obj pre).frame.data 1,
            (run env2 g2 tex.priv.obj pre).frame.data 2] := by
    intro rect
    rw [display_texture_uploads]
    by_cases hd : dirty_count pre 1 = 0
    · rw [if_pos hd, if_neg]
      rw [hready]
      omega
    · rw [if_neg hd, if_pos]
      rw [hready]
      omega
  refine ⟨?_, ?_, hdisp, ?_, ?_⟩
  · intro src c
    cases c <;> rfl
  · intro sub
    simp only [blend_texture, uploads_blend_rects]
    rfl
  · intro rect
    rw [hdisp]
    split
    · simp
    · simp only [List.length_cons, List.length_nil]
      omega
  · intro rect rect2
    rw [display_texture_uploads, if_neg (display_texture_state g2 _ rect).2.2.2]

/-- C4, on the handle of a 720x576 allocation: the first display after the allocation uploads
the three planes, a second display right after it uploads nothing, and a display after a fill
and a blend uploads the three planes of the new frame once. -/
theorem display_uploads_once_per_dirtying_witness :
    (alloc_texture env_ok globals_ready 720 576).1 = some (handle_ok 720 576) ∧
    uploads (display_texture globals_ready
        (run env_ok globals_ready (handle_ok 720 576).priv.obj []) rect_full).2
      = [3000, 4000, 5000] ∧
    uploads (display_texture globals_ready
        (run env_ok globals_ready (handle_ok 720 576).priv.obj [Op.display rect_full])
        rect_full).2 = [] ∧
    uploads (display_texture globals_ready
        (run env_ok globals_ready (handle_ok 720 576).priv.obj
          [Op.display rect_full, Op.fill frame_src none, Op.blend [1]]) rect_full).2
      = [7000, 8000, 9000] :=
  ⟨alloc_texture_env_ok_ready 720 576 (by decide) (by decide),
    ((display_uploads_once_per_dirtying env_ok globals_ready 720 576 (handle_ok 720 576)
      (alloc_texture_env_ok_ready 720 576 (by decide) (by decide)) env_ok globals_ready
      []).2.2.1 rect_full).trans rfl,
    ((display_uploads_once_per_dirtying env_ok globals_ready 720 576 (handle_ok 720 576)
      (alloc_texture_env_ok_ready 720 576 (by decide) (by decide)) env_ok globals_ready
      [Op.display rect_full]).2.2.1 rect_full).trans rfl,
    ((display_uploads_once_per_dirtying env_ok globals_ready 720 576 (handle_ok 720 576)
      (alloc_texture_env_ok_ready 720 576 (by decide) (by decide)) env_ok globals_ready
      [Op.display rect_full, Op.fill frame_src none, Op.blend [1]]).2.2.1 rect_full).trans rfl⟩

end ffplay_gl
